import Mathlib

deriving instance DecidableEq for Except

/-!
Verification development for the answer/distractor execution runtime and the
multiple-choice consolidation harness of the exam-helper repository
(src/exam_helper/solution_runtime.py).

The Python module is shallowly embedded.  Pure text helpers become Lean
functions on `String`/`List Char`; the dynamic `exec` of a snippet is
modelled by the semantic content the runtime extracts from it: a namespace
mapping names to values, where a callable entry point is a Lean function
from parameters to a call outcome.  `SolutionRuntimeError` raising becomes
`Except String`.  The float sort key produced by `_numeric_sort_key` is the
value of a decimal literal; it is modelled exactly as mantissa times a
power of ten (`DecNum`), compared by exact value, where the source rounds
the literal to a binary double first — the orderings coincide on the
decimal magnitudes the harness handles.
-/

namespace SolutionRuntime

/-- Python whitespace characters, as used by `str.strip` and the regex
class backslash-s on the inputs in question: space, tab, newline, carriage
return, vertical tab, form feed. -/
def pyIsSpace (c : Char) : Bool :=
  c = ' ' || c = '\t' || c = '\n' || c = '\r' || c = Char.ofNat 11 || c = Char.ofNat 12

/-- Embedding of Python `str.strip()`: drop leading and trailing whitespace. -/
def pyStrip (s : String) : String :=
  String.mk (((s.data.dropWhile pyIsSpace).reverse.dropWhile pyIsSpace).reverse)

/-- Embedding of the substitution `re.sub(r"\s+", " ", ...)`: every maximal
run of whitespace characters is replaced by a single space.  The flag
records whether the previous character was part of a whitespace run. -/
def collapseWsAux : Bool → List Char → List Char
  | _, [] => []
  | prevSpace, c :: rest =>
    if pyIsSpace c then
      if prevSpace then collapseWsAux true rest
      else ' ' :: collapseWsAux true rest
    else c :: collapseWsAux false rest

/-- Embedding of `str.casefold()`, character by character; on the ASCII
texts handled by the runtime casefolding is ASCII lowercasing. -/
def pyCasefold (s : String) : String :=
  String.mk (s.data.map Char.toLower)

/-- Embedding of `_normalize_choice_text(value)`:
`re.sub(r"\s+", " ", (value or "").strip()).casefold()`.  The `or ""`
guards a Python `None`, which the typed embedding rules out. -/
def normalizeChoiceText (value : String) : String :=
  pyCasefold (String.mk (collapseWsAux false (pyStrip value).data))

/-- Exact value of a matched numeric literal: `mant * 10 ^ exp10`. -/
structure DecNum where
  mant : Int
  exp10 : Int
deriving DecidableEq, Repr

/-- The rational value a `DecNum` denotes. -/
def dnVal (d : DecNum) : ℚ :=
  (d.mant : ℚ) * (10 : ℚ) ^ d.exp10

/-- Integer minimum, written out so that it evaluates in the kernel. -/
def intMin (a b : Int) : Int :=
  if a ≤ b then a else b

/-- Mantissa of `a` rescaled to the exponent `e` (which must not exceed
`a.exp10`); multiplying by `10 ^ e` recovers the value. -/
def dnScaled (a : DecNum) (e : Int) : Int :=
  a.mant * ((10 ^ (a.exp10 - e).toNat : Nat) : Int)

/-- Strict value comparison of two `DecNum`s by integer arithmetic. -/
def dnLtB (a b : DecNum) : Bool :=
  dnScaled a (intMin a.exp10 b.exp10) < dnScaled b (intMin a.exp10 b.exp10)

/-- Value of a list of decimal digit characters. -/
def digitsVal (ds : List Char) : Nat :=
  ds.foldl (fun a c => 10 * a + (c.toNat - 48)) 0

/-- Split a character list into its maximal digit run and the remainder. -/
def takeDigits (cs : List Char) : List Char × List Char :=
  (cs.takeWhile Char.isDigit, cs.dropWhile Char.isDigit)

/-- Match of the pattern `[-+]?\d+(?:\.\d+)?(?:[eE][-+]?\d+)?` anchored at
the head of `cs`, returning the matched value; the fractional part and the
exponent are taken greedily exactly when their subgroups match, as in the
regex.  The value is the exact decimal the matched literal denotes, where
`float(...)` in the source rounds it to a double. -/
def matchNumAt (cs : List Char) : Option DecNum :=
  let sgnSplit : Int × List Char :=
    match cs with
    | '-' :: rest => (-1, rest)
    | '+' :: rest => (1, rest)
    | _ => (1, cs)
  let intSplit := takeDigits sgnSplit.2
  if intSplit.1.isEmpty then none
  else
    let fracSplit : List Char × List Char :=
      match intSplit.2 with
      | '.' :: rest =>
        let fs := takeDigits rest
        if fs.1.isEmpty then ([], intSplit.2) else (fs.1, fs.2)
      | _ => ([], intSplit.2)
    let expVal : Int :=
      match fracSplit.2 with
      | e :: rest =>
        if e = 'e' || e = 'E' then
          let esgnSplit : Int × List Char :=
            match rest with
            | '-' :: r => (-1, r)
            | '+' :: r => (1, r)
            | _ => (1, rest)
          let eds := takeDigits esgnSplit.2
          if eds.1.isEmpty then 0 else esgnSplit.1 * (digitsVal eds.1 : Int)
        else 0
      | [] => 0
    some
      { mant := sgnSplit.1 * ((digitsVal intSplit.1 : Int)
          * ((10 ^ fracSplit.1.length : Nat) : Int) + (digitsVal fracSplit.1 : Int))
        exp10 := expVal - fracSplit.1.length }

/-- The `re.search` pass for the numeric pattern: the match attempted at each
position from the left, first success wins. -/
def numSearch : List Char → Option DecNum
  | [] => none
  | c :: rest =>
    match matchNumAt (c :: rest) with
    | some q => some q
    | none => numSearch rest

/-- Embedding of `_numeric_sort_key(value)`: strip all commas
(`re.sub(r",", "", value or "")`), then search for the first numeric token;
`None` when no token occurs.  The `float(...)` conversion of a match of
this pattern cannot raise, so the `except ValueError` branch is dead. -/
def numericSortKey (value : String) : Option DecNum :=
  numSearch (value.data.filter (fun c => c ≠ ','))

/-- Split `cs` at the first adjacent pair `d d`: returns the part before the
pair and the part after it, or `none` when no such pair occurs. -/
def splitAtPair (d : Char) : List Char → Option (List Char × List Char)
  | [] => none
  | [_] => none
  | a :: b :: rest =>
    if a = d && b = d then some ([], rest)
    else
      match splitAtPair d (b :: rest) with
      | some pr => some (a :: pr.1, pr.2)
      | none => none

/-- One `re.sub` pass for a lazy double-delimiter pattern such as
`\*\*(.*?)\*\*` (DOTALL), replacing each match by its inner group: at a
`d d` opener the closing pair is the next `d d` occurrence; when none
exists no match can start anywhere later either, and scanning stops.  The
fuel argument (initially the list length, which strictly bounds the number
of steps) makes the recursion structural. -/
def stripPairGo (d : Char) : Nat → List Char → List Char
  | 0, cs => cs
  | _ + 1, [] => []
  | _ + 1, [a] => [a]
  | fuel + 1, a :: b :: rest =>
    if a = d && b = d then
      match splitAtPair d rest with
      | some pr => pr.1 ++ stripPairGo d fuel pr.2
      | none => a :: b :: rest
    else a :: stripPairGo d fuel (b :: rest)

/-- Case-insensitive literal prefix match, returning the remainder. -/
def stripPrefixCI : List Char → List Char → Option (List Char)
  | [], cs => some cs
  | _ :: _, [] => none
  | t :: ts, c :: cs => if c.toLower = t.toLower then stripPrefixCI ts cs else none

/-- Anchored match of the pattern `</?tag>` with IGNORECASE, returning the
remainder after the tag. -/
def matchTagAt (tag : List Char) (cs : List Char) : Option (List Char) :=
  match cs with
  | '<' :: '/' :: rest => stripPrefixCI (tag ++ ['>']) rest
  | '<' :: rest => stripPrefixCI (tag ++ ['>']) rest
  | _ => none

/-- One `re.sub` pass deleting every occurrence of `</?tag>`
(case-insensitive), scanning left to right.  Fuel as in `stripPairGo`. -/
def stripTagsGo (tag : List Char) : Nat → List Char → List Char
  | 0, cs => cs
  | _ + 1, [] => []
  | fuel + 1, c :: rest =>
    match matchTagAt tag (c :: rest) with
    | some rem => stripTagsGo tag fuel rem
    | none => c :: stripTagsGo tag fuel rest

/-- Embedding of `_strip_disallowed_bold(text)`: the four substitutions applied in the
order of the source — `\*\*(.*?)\*\*` and `__(.*?)__` replaced by the inner
group, then `</?strong>` and `</?b>` (IGNORECASE) deleted. -/
def stripDisallowedBold (text : String) : String :=
  let s1 := stripPairGo '*' text.data.length text.data
  let s2 := stripPairGo '_' s1.length s1
  let s3 := stripTagsGo ['s', 't', 'r', 'o', 'n', 'g'] s2.length s2
  let s4 := stripTagsGo ['b'] s3.length s3
  String.mk s4

/-! ## The execution model

`exec(python_code, _safe_globals(), ns)` populates a fresh namespace `ns`
from the snippet, or raises.  The embedding carries the snippet source
text (only its blankness is ever inspected) together with the semantic
outcome of that `exec`: a compile error message, or the namespace as a
finite map from names to values.  A namespace value is either a callable —
a function from the parameter mapping to a call outcome (an exception
message or a returned Python value) — or a non-callable binding.  Python
values are modelled with just enough structure for the contract checks:
strings, string-keyed mappings, and an opaque constructor for everything
else. -/

/-- A Python value as inspected by the validators. -/
inductive PyVal where
  | pstr (s : String)
  | pdict (entries : List (String × PyVal))
  | pother

/-- The parameter mapping passed to an entry point. -/
abbrev Params := List (String × PyVal)

/-- Outcome of invoking a callable: an exception or a returned value. -/
inductive CallOutcome where
  | raises (msg : String)
  | returns (v : PyVal)

/-- A binding in the namespace produced by `exec`. -/
inductive NsVal where
  | callable (f : Params → CallOutcome)
  | notCallable

/-- A code snippet: its source text, and the outcome of executing it in the
sandbox globals (`CompileError` message, or the resulting namespace). -/
structure PyCode where
  source : String
  exec : Except String (List (String × NsVal))

/-- Embedding of `raw.get(key)` on a dict value. -/
def pyDictGet (entries : List (String × PyVal)) (k : String) : Option PyVal :=
  List.lookup k entries

/-- The test `not isinstance(x, str) or not x.strip()` — the failed validation test
for one required field. -/
def isBadStrField : Option PyVal → Bool
  | some (PyVal.pstr s) => pyStrip s = ""
  | _ => true

/-- The string carried by a field that passed validation. -/
def strOf : Option PyVal → String
  | some (PyVal.pstr s) => s
  | _ => ""

/-- Embedding of `_run_callable(python_code, fn_name, params)`: reject blank code, run
the compile step, look up the entry point, require it callable, invoke it,
and wrap any exception.  The callers discard the returned namespace, so
only the raw result is returned here.  The `params or {}` and the
`isinstance(safe_params, dict)` guard concern a Python `None`/non-dict
argument, which the typed embedding rules out. -/
def runCallable (code : PyCode) (fnName : String) (params : Params) :
    Except String PyVal :=
  if pyStrip code.source = "" then Except.error "Python code is empty."
  else
    match code.exec with
    | Except.error m => Except.error ("Solution compile error: " ++ m)
    | Except.ok ns =>
      match List.lookup fnName ns with
      | some (NsVal.callable f) =>
        match f params with
        | CallOutcome.raises m => Except.error ("Solution runtime error: " ++ m)
        | CallOutcome.returns v => Except.ok v
      | _ => Except.error ("Solution code must define callable " ++ fnName ++ "(params).")

/-- Result of `run_answer_function`. -/
structure AnswerRunResult where
  answer_md : String
  final_answer : String
deriving DecidableEq, Repr

/-- Result of `run_distractor_function`. -/
structure DistractorRunResult where
  distractor_md : String
  rationale : String
deriving DecidableEq, Repr

/-- Embedding of `run_answer_function(python_code, params)`: run `solve`, require a dict
with non-empty string fields `answer_md` and `final_answer`, and return
them stripped. -/
def run_answer_function (code : PyCode) (params : Params) :
    Except String AnswerRunResult :=
  match runCallable code "solve" params with
  | Except.error e => Except.error e
  | Except.ok raw =>
  match raw with
  | PyVal.pdict entries =>
    if isBadStrField (pyDictGet entries "answer_md") then
      Except.error "solve return must include non-empty string answer_md."
    else if isBadStrField (pyDictGet entries "final_answer") then
      Except.error "solve return must include non-empty string final_answer."
    else
      Except.ok { answer_md := pyStrip (strOf (pyDictGet entries "answer_md"))
                  final_answer := pyStrip (strOf (pyDictGet entries "final_answer")) }
  | _ => Except.error "solve(params) must return a dict."

/-- Embedding of `run_distractor_function(python_code, params)`: run `distractor`,
require a dict with non-empty string fields `distractor_md` and
`rationale`, and return them stripped. -/
def run_distractor_function (code : PyCode) (params : Params) :
    Except String DistractorRunResult :=
  match runCallable code "distractor" params with
  | Except.error e => Except.error e
  | Except.ok raw =>
  match raw with
  | PyVal.pdict entries =>
    if isBadStrField (pyDictGet entries "distractor_md") then
      Except.error "distractor return must include non-empty string distractor_md."
    else if isBadStrField (pyDictGet entries "rationale") then
      Except.error "distractor return must include non-empty string rationale."
    else
      Except.ok { distractor_md := pyStrip (strOf (pyDictGet entries "distractor_md"))
                  rationale := pyStrip (strOf (pyDictGet entries "rationale")) }
  | _ => Except.error "distractor(params) must return a dict."

/-! ## The consolidation harness -/

/-- One entry of the `rows` list assembled by `run_mc_harness`. -/
structure Row where
  source_id : String
  content_md : String
  is_correct : Bool
  rationale : String
deriving DecidableEq, Repr

/-- The labeled choice record (`MCChoice` in `exam_helper.models`; its
optional `rationale` always receives a string here). -/
structure MCChoice where
  label : String
  content_md : String
  is_correct : Bool
  rationale : String
deriving DecidableEq, Repr

/-- Result of `run_mc_harness`. -/
structure HarnessRunResult where
  choices : List MCChoice
  collisions : List String
deriving DecidableEq, Repr

/-- The first row of the harness: the answer, bold markup stripped from its
content, with the fixed rationale string. -/
def answerRow (answer : AnswerRunResult) : Row :=
  { source_id := "answer"
    content_md := stripDisallowedBold answer.final_answer
    is_correct := true
    rationale := "correct answer" }

/-- One distractor row: bold markup stripped from content and rationale. -/
def distractorRow (sid : String) (d : DistractorRunResult) : Row :=
  { source_id := sid
    content_md := stripDisallowedBold d.distractor_md
    is_correct := false
    rationale := stripDisallowedBold d.rationale }

/-- The harness loop over `distractor_python_codes`: evaluate each snippet
in the caller-supplied order, appending a row per snippet; the first
failure propagates. -/
def evalDistractors (params : Params) :
    List (String × PyCode) → Except String (List Row)
  | [] => Except.ok []
  | sc :: rest =>
    match run_distractor_function sc.2 params with
    | Except.error e => Except.error e
    | Except.ok d =>
      match evalDistractors params rest with
      | Except.error e => Except.error e
      | Except.ok rows => Except.ok (distractorRow sc.1 d :: rows)

/-- Rows in harness order: the answer first, then the distractors. -/
def buildRows (answer_code : PyCode) (ds : List (String × PyCode))
    (params : Params) : Except String (List Row) :=
  match run_answer_function answer_code params with
  | Except.error e => Except.error e
  | Except.ok answer =>
    match evalDistractors params ds with
    | Except.error e => Except.error e
    | Except.ok drows => Except.ok (answerRow answer :: drows)

/-- A single-quote character, used by the collision message f-string. -/
def sq : String := String.singleton (Char.ofNat 39)

/-- The collision message
f-string of the source: the kept and duplicate ids in single quotes,
then the content text. -/
def collisionMsg (kept : String) (row : Row) : String :=
  "Duplicate MC option between " ++ sq ++ kept ++ sq ++ " and " ++ sq
    ++ row.source_id ++ sq ++ ": " ++ row.content_md

/-- The collision-detection loop: `seen` maps each canonical text to the
source id of its first occurrence; a row whose canonical text is already
present reports a collision, otherwise it is recorded as kept. -/
def collisionLoop : List (String × String) → List Row → List String
  | _, [] => []
  | seen, row :: rest =>
    match List.lookup (normalizeChoiceText row.content_md) seen with
    | some kept => collisionMsg kept row :: collisionLoop seen rest
    | none =>
      collisionLoop ((normalizeChoiceText row.content_md, row.source_id) :: seen) rest

/-- Collision report of a row list, starting from an empty `seen` map. -/
def collisionsOf (rows : List Row) : List String :=
  collisionLoop [] rows

/-- The sort key type of `_sort_tuple`: bucket, numeric value, canonical
text, source id. -/
abbrev SortKey := Nat × DecNum × String × String

/-- Embedding of `_sort_tuple(row)`: bucket 1 with numeric slot `0.0` when no numeric
token occurs, else bucket 0 with the token value; then canonical text
and source id. -/
def sortTuple (row : Row) : SortKey :=
  match numericSortKey row.content_md with
  | none => (1, ⟨0, 0⟩, normalizeChoiceText row.content_md, row.source_id)
  | some q => (0, q, normalizeChoiceText row.content_md, row.source_id)

/-- Code-point comparison of character lists — the Python `str` less-than. -/
def charListLt : List Char → List Char → Bool
  | [], [] => false
  | [], _ :: _ => true
  | _ :: _, [] => false
  | a :: as, b :: bs =>
    if a.toNat < b.toNat then true
    else if b.toNat < a.toNat then false
    else charListLt as bs

/-- Lexicographic combination: strict head comparison, then the rest. -/
def lexLtB (ltA rest : SortKey → SortKey → Bool) (x y : SortKey) : Bool :=
  if ltA x y then true else if ltA y x then false else rest x y

/-- Non-strict comparison from a strict one (`x ≤ y` iff not `y < x`). -/
def leOfLtB (ltB : SortKey → SortKey → Bool) (x y : SortKey) : Bool :=
  !(ltB y x)

/-- Strict comparison of the bucket components. -/
def keyC1 (x y : SortKey) : Bool := x.1 < y.1

/-- Strict comparison of the numeric components, by value. -/
def keyC2 (x y : SortKey) : Bool := dnLtB x.2.1 y.2.1

/-- Strict comparison of the canonical-text components. -/
def keyC3 (x y : SortKey) : Bool := charListLt x.2.2.1.data y.2.2.1.data

/-- Strict comparison of the source-id components. -/
def keyC4 (x y : SortKey) : Bool := charListLt x.2.2.2.data y.2.2.2.data

/-- The Python tuple ordering on sort keys (key a compared to key b), component by
component, exactly as `list.sort` compares the `_sort_tuple` values. -/
def keyLeB : SortKey → SortKey → Bool :=
  lexLtB keyC1 (lexLtB keyC2 (lexLtB keyC3 (leOfLtB keyC4)))

/-- The row ordering induced by the sort keys. -/
def rowle (r s : Row) : Prop :=
  keyLeB (sortTuple r) (sortTuple s) = true

instance : DecidableRel rowle := fun r s =>
  inferInstanceAs (Decidable (keyLeB (sortTuple r) (sortTuple s) = true))

/-- Embedding of `rows.sort(key=_sort_tuple)`: the Python stable sort by the key tuples.
Embedded as insertion sort, which is stable for this total preorder; a
stable sort for a given total preorder is unique, so this is the list the
source produces. -/
def sortRows (rows : List Row) : List Row :=
  List.insertionSort rowle rows

/-- The label table of the source. -/
def labels : List String := ["A", "B", "C", "D", "E"]

/-- The `for idx, row in enumerate(rows)` loop, carrying the running
index: each row receives `labels[idx] if idx < len(labels) else "?"` and
its fields are copied into an `MCChoice`. -/
def labelRowsGo : Nat → List Row → List MCChoice
  | _, [] => []
  | idx, row :: rest =>
    { label := if idx < labels.length then labels.getD idx "?" else "?"
      content_md := row.content_md
      is_correct := row.is_correct
      rationale := row.rationale } :: labelRowsGo (idx + 1) rest

/-- Label assignment in sorted order, starting the enumeration at 0. -/
def labelRows (rows : List Row) : List MCChoice :=
  labelRowsGo 0 rows

/-- Embedding of `run_mc_harness(answer_python_code, distractor_python_codes, params)`:
evaluate the answer and every distractor into rows, detect collisions on
the unsorted rows, sort, and label. -/
def run_mc_harness (answer_code : PyCode) (ds : List (String × PyCode))
    (params : Params) : Except String HarnessRunResult :=
  match buildRows answer_code ds params with
  | Except.error e => Except.error e
  | Except.ok rows =>
    Except.ok { choices := labelRows (sortRows rows), collisions := collisionsOf rows }

end SolutionRuntime

namespace SolutionRuntime

/-! ## Labeling and congruence lemmas -/

/-- A throwaway default for positional access to choice lists. -/
def dummyChoice : MCChoice :=
  { label := "", content_md := "", is_correct := false, rationale := "" }

theorem labelRowsGo_length :
    ∀ (rows : List Row) (base : Nat), (labelRowsGo base rows).length = rows.length := by
  intro rows
  induction rows with
  | nil => intro base; rfl
  | cons row rest ih => intro base; simp [labelRowsGo, ih]

theorem labelRows_length (rows : List Row) : (labelRows rows).length = rows.length :=
  labelRowsGo_length rows 0

theorem labelRowsGo_label :
    ∀ (rows : List Row) (base i : Nat), i < rows.length →
      ((labelRowsGo base rows).getD i dummyChoice).label =
        (if base + i < labels.length then labels.getD (base + i) "?" else "?") := by
  intro rows
  induction rows with
  | nil => intro base i h; simp at h
  | cons row rest ih =>
    intro base i h
    cases i with
    | zero => simp [labelRowsGo, List.getD]
    | succ j =>
      have hj : j < rest.length := by simpa using h
      have hrec := ih (base + 1) j hj
      rw [show base + (j + 1) = (base + 1) + j by omega]
      simpa [labelRowsGo, List.getD_cons_succ] using hrec

theorem labelRows_label (rows : List Row) (i : Nat) (h : i < rows.length) :
    ((labelRows rows).getD i dummyChoice).label =
      (if i < 5 then labels.getD i "?" else "?") := by
  have hrec := labelRowsGo_label rows 0 i h
  simpa [labelRows, labels] using hrec

theorem run_mc_harness_of_buildRows {a : PyCode} {ds : List (String × PyCode)}
    {p : Params} {rows : List Row} (h : buildRows a ds p = Except.ok rows) :
    run_mc_harness a ds p =
      Except.ok { choices := labelRows (sortRows rows), collisions := collisionsOf rows } := by
  unfold run_mc_harness
  rw [h]

theorem run_mc_harness_ok_elim {a : PyCode} {ds : List (String × PyCode)}
    {p : Params} {r : HarnessRunResult} (h : run_mc_harness a ds p = Except.ok r) :
    ∃ rows, buildRows a ds p = Except.ok rows ∧
      r = { choices := labelRows (sortRows rows), collisions := collisionsOf rows } := by
  unfold run_mc_harness at h
  cases hb : buildRows a ds p with
  | error e => rw [hb] at h; cases h
  | ok rows =>
    rw [hb] at h
    cases h
    exact ⟨rows, rfl, rfl⟩

theorem evalDistractors_congr (p p2 : Params) :
    ∀ (ds ds2 : List (String × PyCode)),
      List.Forall₂ (fun sc sc2 => sc.1 = sc2.1 ∧
        run_distractor_function sc.2 p = run_distractor_function sc2.2 p2) ds ds2 →
      evalDistractors p ds = evalDistractors p2 ds2 := by
  intro ds ds2 h
  induction h with
  | nil => rfl
  | cons h1 _ ih =>
    simp only [evalDistractors]
    rw [h1.2, h1.1, ih]

theorem evalDistractors_of_forall2 (p : Params) :
    ∀ (ds : List (String × PyCode)) (rows : List Row),
      List.Forall₂ (fun sc row => ∃ d, run_distractor_function sc.2 p = Except.ok d ∧
        row = distractorRow sc.1 d) ds rows →
      evalDistractors p ds = Except.ok rows := by
  intro ds rows h
  induction h with
  | nil => rfl
  | cons h1 _ ih =>
    rcases h1 with ⟨d, hd, hrow⟩
    simp only [evalDistractors]
    rw [hd, ih, hrow]

end SolutionRuntime

namespace SolutionRuntime

/-- A snippet whose source is non-blank, compiles, and binds `fnName` to a
callable that ignores its parameters and returns `v`. -/
def constSnippet (fnName : String) (v : PyVal) : PyCode :=
  { source := "def " ++ fnName ++ "(params): ..."
    exec := Except.ok [(fnName, NsVal.callable (fun _ => CallOutcome.returns v))] }

/-- An answer snippet returning fixed `answer_md` and `final_answer`. -/
def mkAnswer (md fa : String) : PyCode :=
  constSnippet "solve" (PyVal.pdict [("answer_md", PyVal.pstr md), ("final_answer", PyVal.pstr fa)])

/-- A distractor snippet returning fixed `distractor_md` and `rationale`. -/
def mkDistractor (md ra : String) : PyCode :=
  constSnippet "distractor" (PyVal.pdict [("distractor_md", PyVal.pstr md), ("rationale", PyVal.pstr ra)])

end SolutionRuntime

namespace SolutionRuntime

/-! ## Order theory of the sort key -/

theorem boolEqOfIff {a b : Bool} (h : a = true ↔ b = true) : a = b := by
  cases a <;> cases b <;> simp_all

theorem intMin_le_left (a b : Int) : intMin a b ≤ a := by
  unfold intMin; split <;> omega

theorem intMin_le_right (a b : Int) : intMin a b ≤ b := by
  unfold intMin; split <;> omega

theorem dnVal_scaled (a : DecNum) (e : Int) (h : e ≤ a.exp10) :
    dnVal a = ((dnScaled a e : Int) : ℚ) * (10 : ℚ) ^ e := by
  unfold dnVal dnScaled
  have h10 : (10 : ℚ) ≠ 0 := by norm_num
  push_cast
  rw [mul_assoc]
  congr 1
  rw [← zpow_natCast (10 : ℚ) (a.exp10 - e).toNat,
    Int.toNat_of_nonneg (by omega : (0 : ℤ) ≤ a.exp10 - e), ← zpow_add₀ h10]
  congr 1
  omega

theorem dnLtB_iff (a b : DecNum) : dnLtB a b = true ↔ dnVal a < dnVal b := by
  unfold dnLtB
  rw [dnVal_scaled a (intMin a.exp10 b.exp10) (intMin_le_left _ _),
    dnVal_scaled b (intMin a.exp10 b.exp10) (intMin_le_right _ _),
    mul_lt_mul_right (zpow_pos (by norm_num : (0 : ℚ) < 10) _)]
  simp [decide_eq_true_eq, Int.cast_lt]

theorem charListLt_asymm :
    ∀ as bs, charListLt as bs = true → charListLt bs as = false := by
  intro as
  induction as with
  | nil => intro bs h; cases bs <;> simp [charListLt] at h ⊢
  | cons a as ih =>
    intro bs h
    cases bs with
    | nil => simp [charListLt] at h
    | cons b bs =>
      simp only [charListLt] at h ⊢
      by_cases h1 : a.toNat < b.toNat
      · rw [if_neg (by omega : ¬ b.toNat < a.toNat), if_pos h1]
      · by_cases h2 : b.toNat < a.toNat
        · simp [h1, h2] at h
        · simp only [h1, h2, if_false] at h
          simp [h1, h2, ih bs h]

theorem charListLt_trans :
    ∀ as bs cs, charListLt as bs = true → charListLt bs cs = true →
      charListLt as cs = true := by
  intro as
  induction as with
  | nil =>
    intro bs cs h1 h2
    cases bs with
    | nil => simp [charListLt] at h1
    | cons b bs =>
      cases cs with
      | nil => simp [charListLt] at h2
      | cons c cs => simp [charListLt]
  | cons a as ih =>
    intro bs cs h1 h2
    cases bs with
    | nil => simp [charListLt] at h1
    | cons b bs =>
      cases cs with
      | nil => simp [charListLt] at h2
      | cons c cs =>
        simp only [charListLt] at h1 h2 ⊢
        by_cases hab : a.toNat < b.toNat
        · by_cases hbc : b.toNat < c.toNat
          · simp [(by omega : a.toNat < c.toNat)]
          · by_cases hcb : c.toNat < b.toNat
            · simp [hbc, hcb] at h2
            · simp [(by omega : a.toNat < c.toNat)]
        · by_cases hba : b.toNat < a.toNat
          · simp [hab, hba] at h1
          · by_cases hbc : b.toNat < c.toNat
            · simp [(by omega : a.toNat < c.toNat)]
            · by_cases hcb : c.toNat < b.toNat
              · simp [hbc, hcb] at h2
              · have hac : ¬ a.toNat < c.toNat := by omega
                have hca : ¬ c.toNat < a.toNat := by omega
                simp only [hab, hba, if_false] at h1
                simp only [hbc, hcb, if_false] at h2
                simp [hac, hca, ih bs cs h1 h2]

theorem charListLt_congr :
    ∀ as bs, charListLt as bs = false → charListLt bs as = false →
      ∀ cs, charListLt as cs = charListLt bs cs ∧
        charListLt cs as = charListLt cs bs := by
  intro as
  induction as with
  | nil =>
    intro bs h1 h2 cs
    cases bs with
    | nil => exact ⟨rfl, rfl⟩
    | cons b bs => simp [charListLt] at h1
  | cons a as ih =>
    intro bs h1 h2 cs
    cases bs with
    | nil => simp [charListLt] at h2
    | cons b bs =>
      simp only [charListLt] at h1 h2
      by_cases hab : a.toNat < b.toNat
      · simp [hab] at h1
      · by_cases hba : b.toNat < a.toNat
        · simp [hab, hba] at h2
        · simp only [hab, hba, if_false] at h1 h2
          cases cs with
          | nil => simp [charListLt]
          | cons c cs =>
            have heq : a.toNat = b.toNat := by omega
            have hrec := ih bs h1 h2 cs
            constructor
            · simp only [charListLt, heq, hrec.1]
            · simp only [charListLt, heq, hrec.2]

theorem lexLtB_total (ltA rest : SortKey → SortKey → Bool)
    (hR : ∀ x y, rest x y = true ∨ rest y x = true) :
    ∀ x y, lexLtB ltA rest x y = true ∨ lexLtB ltA rest y x = true := by
  intro x y
  unfold lexLtB
  by_cases h1 : ltA x y = true
  · left; simp [h1]
  · by_cases h2 : ltA y x = true
    · right; simp [h2]
    · rcases hR x y with h | h
      · left; simp [h1, h2, h]
      · right; simp [h1, h2, h]

theorem lexLtB_trans (ltA rest : SortKey → SortKey → Bool)
    (hAt : ∀ x y z, ltA x y = true → ltA y z = true → ltA x z = true)
    (hAc : ∀ x y, ltA x y = false → ltA y x = false →
      ∀ z, ltA x z = ltA y z ∧ ltA z x = ltA z y)
    (hR : ∀ x y z, rest x y = true → rest y z = true → rest x z = true) :
    ∀ x y z, lexLtB ltA rest x y = true → lexLtB ltA rest y z = true →
      lexLtB ltA rest x z = true := by
  intro x y z hxy hyz
  unfold lexLtB at hxy hyz ⊢
  by_cases haxy : ltA x y = true
  · by_cases hayz : ltA y z = true
    · simp [hAt x y z haxy hayz]
    · by_cases hazy : ltA z y = true
      · simp [hayz, hazy] at hyz
      · have h := (hAc y z (by simpa using hayz) (by simpa using hazy) x).2
        simp [← h, haxy]
  · by_cases hayx : ltA y x = true
    · simp [haxy, hayx] at hxy
    · have hc := hAc x y (by simpa using haxy) (by simpa using hayx)
      by_cases hayz : ltA y z = true
      · simp [(hc z).1, hayz]
      · by_cases hazy : ltA z y = true
        · simp [haxy, hayx, hayz, hazy] at hxy hyz
        · have haxz : ltA x z = false := by rw [(hc z).1]; simpa using hayz
          have hazx : ltA z x = false := by rw [(hc z).2]; simpa using hazy
          simp only [haxy, hayx, if_false] at hxy
          simp only [hayz, hazy, if_false] at hyz
          simp [haxz, hazx, hR x y z hxy hyz]

theorem leOfLtB_total (ltB : SortKey → SortKey → Bool)
    (hAs : ∀ x y, ltB x y = true → ltB y x = false) :
    ∀ x y, leOfLtB ltB x y = true ∨ leOfLtB ltB y x = true := by
  intro x y
  unfold leOfLtB
  by_cases h : ltB y x = true
  · right; simp [hAs y x h]
  · left; simpa using h

theorem leOfLtB_trans (ltB : SortKey → SortKey → Bool)
    (hAt : ∀ x y z, ltB x y = true → ltB y z = true → ltB x z = true)
    (hAc : ∀ x y, ltB x y = false → ltB y x = false →
      ∀ z, ltB x z = ltB y z ∧ ltB z x = ltB z y) :
    ∀ x y z, leOfLtB ltB x y = true → leOfLtB ltB y z = true →
      leOfLtB ltB x z = true := by
  intro x y z hxy hyz
  unfold leOfLtB at hxy hyz ⊢
  have hyx : ltB y x = false := by simpa using hxy
  have hzy : ltB z y = false := by simpa using hyz
  by_cases hzx : ltB z x = true
  · by_cases hxy2 : ltB x y = true
    · have := hAt z x y hzx hxy2
      rw [this] at hzy
      cases hzy
    · have hcong := hAc x y (by simpa using hxy2) hyx
      have := (hcong z).2
      rw [this] at hzx
      rw [hzx] at hzy
      cases hzy
  · simpa using hzx

theorem keyC1_trans : ∀ x y z : SortKey, keyC1 x y = true → keyC1 y z = true →
    keyC1 x z = true := by
  intro x y z h1 h2
  simp only [keyC1, decide_eq_true_eq] at h1 h2 ⊢
  omega

theorem keyC1_congr : ∀ x y : SortKey, keyC1 x y = false → keyC1 y x = false →
    ∀ z, keyC1 x z = keyC1 y z ∧ keyC1 z x = keyC1 z y := by
  intro x y h1 h2 z
  simp only [keyC1, decide_eq_false_iff_not] at h1 h2
  have : x.1 = y.1 := by omega
  simp [keyC1, this]

theorem keyC2_trans : ∀ x y z : SortKey, keyC2 x y = true → keyC2 y z = true →
    keyC2 x z = true := by
  intro x y z h1 h2
  simp only [keyC2, dnLtB_iff] at h1 h2 ⊢
  exact lt_trans h1 h2

theorem keyC2_congr : ∀ x y : SortKey, keyC2 x y = false → keyC2 y x = false →
    ∀ z, keyC2 x z = keyC2 y z ∧ keyC2 z x = keyC2 z y := by
  intro x y h1 h2 z
  have hval : dnVal x.2.1 = dnVal y.2.1 := by
    have n1 : ¬ dnVal x.2.1 < dnVal y.2.1 := by
      rw [← dnLtB_iff]; simp [keyC2] at h1; simp [h1]
    have n2 : ¬ dnVal y.2.1 < dnVal x.2.1 := by
      rw [← dnLtB_iff]; simp [keyC2] at h2; simp [h2]
    linarith
  constructor
  · exact boolEqOfIff (by simp only [keyC2, dnLtB_iff, hval])
  · exact boolEqOfIff (by simp only [keyC2, dnLtB_iff, hval])

theorem keyC3_trans : ∀ x y z : SortKey, keyC3 x y = true → keyC3 y z = true →
    keyC3 x z = true := by
  intro x y z h1 h2
  exact charListLt_trans _ _ _ h1 h2

theorem keyC3_congr : ∀ x y : SortKey, keyC3 x y = false → keyC3 y x = false →
    ∀ z, keyC3 x z = keyC3 y z ∧ keyC3 z x = keyC3 z y := by
  intro x y h1 h2 z
  exact charListLt_congr _ _ h1 h2 _

theorem keyC4_trans : ∀ x y z : SortKey, keyC4 x y = true → keyC4 y z = true →
    keyC4 x z = true := by
  intro x y z h1 h2
  exact charListLt_trans _ _ _ h1 h2

theorem keyC4_congr : ∀ x y : SortKey, keyC4 x y = false → keyC4 y x = false →
    ∀ z, keyC4 x z = keyC4 y z ∧ keyC4 z x = keyC4 z y := by
  intro x y h1 h2 z
  exact charListLt_congr _ _ h1 h2 _

theorem keyC4_asymm : ∀ x y : SortKey, keyC4 x y = true → keyC4 y x = false :=
  fun _ _ h => charListLt_asymm _ _ h

theorem keyLeB_total : ∀ x y : SortKey, keyLeB x y = true ∨ keyLeB y x = true := by
  unfold keyLeB
  exact lexLtB_total _ _ (lexLtB_total _ _ (lexLtB_total _ _
    (leOfLtB_total _ keyC4_asymm)))

theorem keyLeB_trans : ∀ x y z : SortKey, keyLeB x y = true → keyLeB y z = true →
    keyLeB x z = true := by
  unfold keyLeB
  exact lexLtB_trans _ _ keyC1_trans keyC1_congr (lexLtB_trans _ _ keyC2_trans
    keyC2_congr (lexLtB_trans _ _ keyC3_trans keyC3_congr
      (leOfLtB_trans _ keyC4_trans keyC4_congr)))

instance : IsTotal Row rowle := ⟨fun r s => keyLeB_total (sortTuple r) (sortTuple s)⟩

instance : IsTrans Row rowle :=
  ⟨fun r s t h1 h2 => keyLeB_trans (sortTuple r) (sortTuple s) (sortTuple t) h1 h2⟩

/-- The sorted row list is sorted for the key ordering. -/
theorem sortRows_sorted (rows : List Row) : List.Sorted rowle (sortRows rows) :=
  List.sorted_insertionSort rowle rows

/-- The sorted row list is a permutation of the input rows. -/
theorem sortRows_perm (rows : List Row) : List.Perm (sortRows rows) rows :=
  List.perm_insertionSort rowle rows

/-! ## Collision report: specification form -/

/-- Modelled from the spec, step 3 of the harness algorithm: walking the
rows in order (the answer first, then the distractors in input order), a
row is reported exactly when some earlier row has the same canonical text,
and the kept source named in the message is the *first* earlier row with
that canonical text.  This searches the full list `pre` of earlier rows,
where the source keeps a canonical-text-to-first-source map. -/
def collisionSpecGo : List Row → List Row → List String
  | _, [] => []
  | pre, r :: rest =>
    match pre.find? (fun q => normalizeChoiceText q.content_md
        == normalizeChoiceText r.content_md) with
    | some kept => collisionMsg kept.source_id r :: collisionSpecGo (pre ++ [r]) rest
    | none => collisionSpecGo (pre ++ [r]) rest

/-- The specification form of the collision report. -/
def collisionReportSpec (rows : List Row) : List String :=
  collisionSpecGo [] rows

theorem collisionLoop_eq_specGo :
    ∀ (rows : List Row) (seen : List (String × String)) (pre : List Row),
      (∀ c, List.lookup c seen =
        (pre.find? (fun q => normalizeChoiceText q.content_md == c)).map Row.source_id) →
      collisionLoop seen rows = collisionSpecGo pre rows := by
  intro rows
  induction rows with
  | nil => intro seen pre _; rfl
  | cons r rest ih =>
    intro seen pre h
    have hc := h (normalizeChoiceText r.content_md)
    cases hfind : pre.find? (fun q => normalizeChoiceText q.content_md
        == normalizeChoiceText r.content_md) with
    | some kept =>
      rw [hfind] at hc
      have hc2 : List.lookup (normalizeChoiceText r.content_md) seen
          = some kept.source_id := by rw [hc]; rfl
      have hinv : ∀ c, List.lookup c seen =
          ((pre ++ [r]).find? (fun q => normalizeChoiceText q.content_md == c)).map
            Row.source_id := by
        intro c
        rw [h c, List.find?_append]
        cases hf2 : pre.find? (fun q => normalizeChoiceText q.content_md == c) with
        | some x => rfl
        | none =>
          by_cases hcc : normalizeChoiceText r.content_md = c
          · rw [hcc] at hfind; rw [hfind] at hf2; cases hf2
          · have hb : (normalizeChoiceText r.content_md == c) = false := by
              simpa using hcc
            simp [List.find?, hb]
      show collisionLoop seen (r :: rest) = collisionSpecGo pre (r :: rest)
      simp only [collisionLoop, collisionSpecGo, hfind, hc2]
      exact congrArg (fun l => collisionMsg kept.source_id r :: l) (ih seen (pre ++ [r]) hinv)
    | none =>
      rw [hfind] at hc
      have hc2 : List.lookup (normalizeChoiceText r.content_md) seen = none := by
        rw [hc]; rfl
      have hinv : ∀ c,
          List.lookup c ((normalizeChoiceText r.content_md, r.source_id) :: seen) =
          ((pre ++ [r]).find? (fun q => normalizeChoiceText q.content_md == c)).map
            Row.source_id := by
        intro c
        rw [List.find?_append]
        by_cases hcc : c = normalizeChoiceText r.content_md
        · subst hcc
          rw [hfind]
          simp [List.lookup, List.find?]
        · have hb : (c == normalizeChoiceText r.content_md) = false := by
            simpa using hcc
          have hb2 : (normalizeChoiceText r.content_md == c) = false := by
            simpa using fun hh => hcc hh.symm
          simp only [List.lookup, hb]
          rw [h c]
          cases hf2 : pre.find? (fun q => normalizeChoiceText q.content_md == c) with
          | some x => rfl
          | none => simp [List.find?, hb2]
      show collisionLoop seen (r :: rest) = collisionSpecGo pre (r :: rest)
      simp only [collisionLoop, collisionSpecGo, hfind, hc2]
      exact ih _ (pre ++ [r]) hinv

/-- The collision loop of the source computes the specification form. -/
theorem collisionsOf_eq_spec (rows : List Row) :
    collisionsOf rows = collisionReportSpec rows := by
  apply collisionLoop_eq_specGo
  intro c
  rfl

/-! ## Evaluation-loop lemmas -/

theorem evalDistractors_ok_iff (p : Params) :
    ∀ ds : List (String × PyCode),
      (∃ rows, evalDistractors p ds = Except.ok rows) ↔
        ∀ sc ∈ ds, ∃ d, run_distractor_function sc.2 p = Except.ok d := by
  intro ds
  induction ds with
  | nil => simp [evalDistractors]
  | cons sc rest ih =>
    simp only [evalDistractors, List.mem_cons]
    cases hd : run_distractor_function sc.2 p with
    | error e =>
      constructor
      · rintro ⟨rows, hrows⟩; cases hrows
      · intro h
        rcases h sc (Or.inl rfl) with ⟨d, hd2⟩
        rw [hd] at hd2; cases hd2
    | ok d =>
      cases hrest : evalDistractors p rest with
      | error e =>
        constructor
        · rintro ⟨rows, hrows⟩; cases hrows
        · intro h
          have : ∀ sc2 ∈ rest, ∃ d2, run_distractor_function sc2.2 p = Except.ok d2 :=
            fun sc2 hm => h sc2 (Or.inr hm)
          rcases (ih.mpr this) with ⟨rows, hrows⟩
          rw [hrest] at hrows; cases hrows
      | ok rows2 =>
        constructor
        · intro _ sc2 hm
          rcases hm with hm | hm
          · exact ⟨d, by rw [hm]; exact hd⟩
          · exact ih.mp ⟨_, hrest⟩ sc2 hm
        · intro _; exact ⟨_, rfl⟩

theorem evalDistractors_length (p : Params) :
    ∀ (ds : List (String × PyCode)) (rows : List Row),
      evalDistractors p ds = Except.ok rows → rows.length = ds.length := by
  intro ds
  induction ds with
  | nil => intro rows h; cases h; rfl
  | cons sc rest ih =>
    intro rows h
    simp only [evalDistractors] at h
    cases hd : run_distractor_function sc.2 p with
    | error e => rw [hd] at h; cases h
    | ok d =>
      rw [hd] at h
      cases hrest : evalDistractors p rest with
      | error e =>
        rw [hrest] at h; cases h
      | ok rows2 =>
        rw [hrest] at h
        cases h
        simp [List.length_cons, ih rows2 hrest]

theorem evalDistractors_error_at (p : Params) :
    ∀ (pre : List (String × PyCode)) (sc : String × PyCode)
      (post : List (String × PyCode)) (e : String),
      (∀ sc2 ∈ pre, ∃ d, run_distractor_function sc2.2 p = Except.ok d) →
      run_distractor_function sc.2 p = Except.error e →
      evalDistractors p (pre ++ sc :: post) = Except.error e := by
  intro pre
  induction pre with
  | nil =>
    intro sc post e _ he
    simp only [List.nil_append, evalDistractors]
    rw [he]
  | cons sc0 rest ih =>
    intro sc post e hok he
    rcases hok sc0 (List.mem_cons_self sc0 rest) with ⟨d, hd⟩
    show evalDistractors p (sc0 :: (rest ++ sc :: post)) = Except.error e
    simp only [evalDistractors]
    rw [hd, ih sc post e (fun sc2 hm => hok sc2 (List.mem_cons_of_mem sc0 hm)) he]

end SolutionRuntime

namespace SolutionRuntime

/-! ## Claim C1 -/

/-- The distractor snippet of the unit test in the repository,
`test_distractor_function_repairs_swapped_answer_and_rationale`: the
entry point returns the explanatory phrase in the `distractor_md` slot and
the numeric token in the `rationale` slot. -/
def swappedDistractor : PyCode :=
  mkDistractor "Mistakenly applies inverse scaling between p and T." "47.3 C"

/-- C1: `run_distractor_function` performs NO swap repair.  Both fields of
the swapped snippet are non-empty strings, so validation passes and the
evaluator returns them in their original slots: `distractor_md` stays the
explanatory phrase and `rationale` stays the numeric token — not the
swapped orientation the claim (and that same unit test)
requires.  The code contradicts its own test suite here, so the claim
stands and the code is at fault. -/
theorem claim1_no_swap_repair :
    run_distractor_function swappedDistractor [] =
      Except.ok { distractor_md := "Mistakenly applies inverse scaling between p and T."
                  rationale := "47.3 C" } ∧
    run_distractor_function swappedDistractor [] ≠
      Except.ok { distractor_md := "47.3 C"
                  rationale := "Mistakenly applies inverse scaling between p and T." } := by
  exact ⟨rfl, by decide⟩

/-! ## Claim C3 -/

/-- C3: collisions are reported exactly for canonical-text equality, with
the first-seen candidate kept.  First conjunct: the seen-map loop of the
source equals the specification form — a row is reported precisely when
some earlier row (answer first, then distractors in input order) has the
same canonical text, and the message names the first such earlier row as
kept.  Remaining conjuncts: the contents `2 m/s`, `2  m/s`, `2 M/S`
canonicalize identically, the harness reports the two later ones against
the first-seen `answer` candidate, and the call still returns the full
labeled three-option set. -/
theorem claim3_collision_report :
    (∀ rows : List Row, collisionsOf rows = collisionReportSpec rows) ∧
    normalizeChoiceText "2  m/s" = normalizeChoiceText "2 m/s" ∧
    normalizeChoiceText "2 M/S" = normalizeChoiceText "2 m/s" ∧
    run_mc_harness (mkAnswer "Ans" "2 m/s")
      [("d1", mkDistractor "2  m/s" "r1"), ("d2", mkDistractor "2 M/S" "r2")] [] =
    Except.ok
      { choices :=
          [ { label := "A", content_md := "2 m/s", is_correct := true,
              rationale := "correct answer" },
            { label := "B", content_md := "2  m/s", is_correct := false, rationale := "r1" },
            { label := "C", content_md := "2 M/S", is_correct := false, rationale := "r2" } ],
        collisions :=
          [ "Duplicate MC option between " ++ sq ++ "answer" ++ sq ++ " and " ++ sq
              ++ "d1" ++ sq ++ ": 2  m/s",
            "Duplicate MC option between " ++ sq ++ "answer" ++ sq ++ " and " ++ sq
              ++ "d2" ++ sq ++ ": 2 M/S" ] } := by
  exact ⟨collisionsOf_eq_spec, rfl, rfl, rfl⟩

/-! ## Claim C7 -/

/-- C7: compiled code with no callable bound to the required entry-point
name of the role it is evaluated in (`solve` for the answer role,
`distractor` for the distractor role) makes that evaluation fail with the
missing-entry-point error, whose message names the required callable.
Each role constrains only its own entry point: a snippet may well bind
the other role's callable and still fail this way. -/
theorem claim7_missing_entry_point :
    (∀ (src : String) (ns : List (String × NsVal)) (p : Params),
      pyStrip src ≠ "" →
      (∀ f, List.lookup "solve" ns ≠ some (NsVal.callable f)) →
      run_answer_function { source := src, exec := Except.ok ns } p =
        Except.error ("Solution code must define callable " ++ "solve" ++ "(params).")) ∧
    (∀ (src : String) (ns : List (String × NsVal)) (p : Params),
      pyStrip src ≠ "" →
      (∀ f, List.lookup "distractor" ns ≠ some (NsVal.callable f)) →
      run_distractor_function { source := src, exec := Except.ok ns } p =
        Except.error ("Solution code must define callable " ++ "distractor" ++ "(params).")) := by
  constructor
  · intro src ns p hsrc hs
    unfold run_answer_function runCallable
    rw [if_neg hsrc]
    dsimp only
    cases hl : List.lookup "solve" ns with
    | none => rfl
    | some v =>
      cases v with
      | callable f => exact absurd hl (hs f)
      | notCallable => rfl
  · intro src ns p hsrc hd
    unfold run_distractor_function runCallable
    rw [if_neg hsrc]
    dsimp only
    cases hl : List.lookup "distractor" ns with
    | none => rfl
    | some v =>
      cases v with
      | callable f => exact absurd hl (hd f)
      | notCallable => rfl

/-- C7 witness: the cross-role cases — a snippet binding only a
`distractor` callable evaluated as an answer raises the message naming
`solve`, a snippet binding only a `solve` callable evaluated as a
distractor raises the message naming `distractor`, and a namespace with
only a non-callable binding fails in both roles. -/
theorem claim7_witness :
    run_answer_function (mkDistractor "2" "r") [] =
      Except.error ("Solution code must define callable " ++ "solve" ++ "(params).") ∧
    run_distractor_function (mkAnswer "Ans" "1") [] =
      Except.error ("Solution code must define callable " ++ "distractor" ++ "(params).") ∧
    run_answer_function { source := "x = 1", exec := Except.ok [("x", NsVal.notCallable)] } [] =
      Except.error ("Solution code must define callable " ++ "solve" ++ "(params).") := by
  refine ⟨?_, ?_, ?_⟩
  · exact claim7_missing_entry_point.1 ("def " ++ "distractor" ++ "(params): ...")
      [("distractor", NsVal.callable (fun _ => CallOutcome.returns
        (PyVal.pdict [("distractor_md", PyVal.pstr "2"), ("rationale", PyVal.pstr "r")])))] []
      (by decide)
      (by intro f h; simp [List.lookup] at h)
  · exact claim7_missing_entry_point.2 ("def " ++ "solve" ++ "(params): ...")
      [("solve", NsVal.callable (fun _ => CallOutcome.returns
        (PyVal.pdict [("answer_md", PyVal.pstr "Ans"), ("final_answer", PyVal.pstr "1")])))] []
      (by decide)
      (by intro f h; simp [List.lookup] at h)
  · exact claim7_missing_entry_point.1 "x = 1" [("x", NsVal.notCallable)] []
      (by decide)
      (by intro f h; simp [List.lookup] at h)

/-! ## Claim C8 -/

/-- C8 counterexample: the field names of the answer contract in the code are
`answer_md` and `final_answer`, not `final_answer_text`.  A `solve`
returning only the field named `final_answer_text` (empty) fails with the
message naming `answer_md` — the first missing field — and that message
does not contain `final_answer_text` at all. -/
theorem claim8_counterexample :
    run_answer_function (constSnippet "solve"
        (PyVal.pdict [("final_answer_text", PyVal.pstr "")])) [] =
      Except.error "solve return must include non-empty string answer_md." ∧
    ¬ List.IsInfix "final_answer_text".data
        "solve return must include non-empty string answer_md.".data := by
  exact ⟨rfl, by decide⟩

/-- C8 amended: the final-answer field of the code is `final_answer`; an
answer snippet returning a valid `answer_md` and an empty `final_answer`
raises the error naming `final_answer`, and a snippet returning only the
(spec-named) `final_answer_text` field fails on the missing `answer_md`
first, with the error naming `answer_md`. -/
theorem claim8_amended :
    run_answer_function (constSnippet "solve"
        (PyVal.pdict [("answer_md", PyVal.pstr "x"), ("final_answer", PyVal.pstr "")])) [] =
      Except.error "solve return must include non-empty string final_answer." ∧
    List.IsInfix "final_answer".data
      "solve return must include non-empty string final_answer.".data ∧
    run_answer_function (constSnippet "solve"
        (PyVal.pdict [("final_answer_text", PyVal.pstr "")])) [] =
      Except.error "solve return must include non-empty string answer_md." ∧
    List.IsInfix "answer_md".data
      "solve return must include non-empty string answer_md.".data := by
  exact ⟨rfl, by decide, rfl, by decide⟩

/-! ## Claim C2 -/

/-- Modelled from the words of claim C2: a *leading* numeric token — the
numeric pattern anchored at the very start of the content text, after
stripping thousands-separator commas.  For comparison with the  source function
`_numeric_sort_key`, which searches for the pattern anywhere in the
text. -/
def leadingNumericKey (value : String) : Option DecNum :=
  matchNumAt (value.data.filter (fun c => c ≠ ','))

/-- C2 counterexample.  Input: answer content `aardvark`, distractors
`d1 = 2.5 zz`, `d2 = 2.5 aa`, `d3 = alpha 5`.  Per the claim, `alpha 5`
and `aardvark` carry no *leading* numeric token, so both would sort as
text (`aardvark` before `alpha 5`), and the equal-valued `2.5` pair would
break its tie by source id (`d1` before `d2`).  The code instead keys
`alpha 5` on the `5` found mid-text and orders the `2.5` tie by canonical
text before source id, producing
`[2.5 aa, 2.5 zz, alpha 5, aardvark]` — not the claimed
`[2.5 zz, 2.5 aa, aardvark, alpha 5]`. -/
theorem claim2_counterexample :
    leadingNumericKey "alpha 5" = none ∧
    leadingNumericKey "aardvark" = none ∧
    numericSortKey "alpha 5" = some { mant := 5, exp10 := 0 } ∧
    numericSortKey "2.5 zz" = numericSortKey "2.5 aa" ∧
    charListLt "aardvark".data "alpha 5".data = true ∧
    run_mc_harness (mkAnswer "Ans" "aardvark")
      [("d1", mkDistractor "2.5 zz" "r1"), ("d2", mkDistractor "2.5 aa" "r2"),
       ("d3", mkDistractor "alpha 5" "r3")] [] =
    Except.ok
      { choices :=
          [ { label := "A", content_md := "2.5 aa", is_correct := false, rationale := "r2" },
            { label := "B", content_md := "2.5 zz", is_correct := false, rationale := "r1" },
            { label := "C", content_md := "alpha 5", is_correct := false, rationale := "r3" },
            { label := "D", content_md := "aardvark", is_correct := true,
              rationale := "correct answer" } ],
        collisions := [] } ∧
    ["2.5 aa", "2.5 zz", "alpha 5", "aardvark"] ≠
      ["2.5 zz", "2.5 aa", "aardvark", "alpha 5"] := by
  exact ⟨rfl, rfl, rfl, rfl, rfl, rfl, by decide⟩

/-- C2 amended: on every successful call the returned options are the
rows sorted by `_sort_tuple` — candidates whose content text contains a
numeric token anywhere (the first match; signed values, decimals,
scientific notation, commas stripped) precede all candidates without one
and ascend by that value; ties of equal numeric value, and all non-numeric
candidates, order by canonicalized text and then by source id.  The first
conjunct fixes the harness output and states sortedness (for the key
ordering `rowle`) and permutation; the second verifies the example of the claim: answer `10 m/s` with distractors `20 m/s`, `2 m/s`, `alpha`,
`beta` yields A–E over `[2 m/s, 10 m/s, 20 m/s, alpha, beta]`. -/
theorem claim2_sort_order :
    (∀ (a : PyCode) (ds : List (String × PyCode)) (p : Params) (rows : List Row),
      buildRows a ds p = Except.ok rows →
        run_mc_harness a ds p =
          Except.ok { choices := labelRows (sortRows rows),
                      collisions := collisionsOf rows } ∧
        List.Sorted rowle (sortRows rows) ∧
        List.Perm (sortRows rows) rows) ∧
    run_mc_harness (mkAnswer "Ans" "10 m/s")
      [("d1", mkDistractor "20 m/s" "r1"), ("d2", mkDistractor "2 m/s" "r2"),
       ("d3", mkDistractor "alpha" "r3"), ("d4", mkDistractor "beta" "r4")] [] =
    Except.ok
      { choices :=
          [ { label := "A", content_md := "2 m/s", is_correct := false, rationale := "r2" },
            { label := "B", content_md := "10 m/s", is_correct := true,
              rationale := "correct answer" },
            { label := "C", content_md := "20 m/s", is_correct := false, rationale := "r1" },
            { label := "D", content_md := "alpha", is_correct := false, rationale := "r3" },
            { label := "E", content_md := "beta", is_correct := false, rationale := "r4" } ],
        collisions := [] } := by
  constructor
  · intro a ds p rows h
    exact ⟨run_mc_harness_of_buildRows h, sortRows_sorted rows, sortRows_perm rows⟩
  · rfl

/-- The rows the C2 example produces, for the witness. -/
def c2Rows : List Row :=
  [ { source_id := "answer", content_md := "10 m/s", is_correct := true,
      rationale := "correct answer" },
    { source_id := "d1", content_md := "20 m/s", is_correct := false, rationale := "r1" },
    { source_id := "d2", content_md := "2 m/s", is_correct := false, rationale := "r2" },
    { source_id := "d3", content_md := "alpha", is_correct := false, rationale := "r3" },
    { source_id := "d4", content_md := "beta", is_correct := false, rationale := "r4" } ]

/-- C2 witness: the amended theorem applied to the example of the claim. -/
theorem claim2_sort_order_witness :
    List.Sorted rowle (sortRows c2Rows) ∧
    run_mc_harness (mkAnswer "Ans" "10 m/s")
      [("d1", mkDistractor "20 m/s" "r1"), ("d2", mkDistractor "2 m/s" "r2"),
       ("d3", mkDistractor "alpha" "r3"), ("d4", mkDistractor "beta" "r4")] [] =
    Except.ok { choices := labelRows (sortRows c2Rows),
                collisions := collisionsOf c2Rows } := by
  have h := claim2_sort_order.1 (mkAnswer "Ans" "10 m/s")
    [("d1", mkDistractor "20 m/s" "r1"), ("d2", mkDistractor "2 m/s" "r2"),
     ("d3", mkDistractor "alpha" "r3"), ("d4", mkDistractor "beta" "r4")] [] c2Rows (by rfl)
  exact ⟨h.2.1, h.1⟩

/-! ## Claim C4 -/

/-- C4: a failure of any of the `1 + N` evaluations is fatal and
propagated.  The conjuncts: the harness succeeds exactly when the answer
evaluation and every distractor evaluation succeed; a successful harness
returns exactly `1 + N` labeled options; an answer-evaluation error is
returned verbatim; and when the answer and every distractor before some
failing snippet succeed, the error of that snippet is returned verbatim — no
partial option set in any failing case. -/
theorem claim4_failure_propagation :
    ∀ (a : PyCode) (ds : List (String × PyCode)) (p : Params),
      ((∃ r, run_mc_harness a ds p = Except.ok r) ↔
        ((∃ x, run_answer_function a p = Except.ok x) ∧
          ∀ sc ∈ ds, ∃ d, run_distractor_function sc.2 p = Except.ok d)) ∧
      (∀ r, run_mc_harness a ds p = Except.ok r →
        r.choices.length = 1 + ds.length) ∧
      (∀ e, run_answer_function a p = Except.error e →
        run_mc_harness a ds p = Except.error e) ∧
      (∀ (pre : List (String × PyCode)) (sc : String × PyCode)
          (post : List (String × PyCode)) (e : String),
        ds = pre ++ sc :: post →
        (∃ x, run_answer_function a p = Except.ok x) →
        (∀ sc2 ∈ pre, ∃ d, run_distractor_function sc2.2 p = Except.ok d) →
        run_distractor_function sc.2 p = Except.error e →
        run_mc_harness a ds p = Except.error e) := by
  intro a ds p
  refine ⟨⟨?_, ?_⟩, ?_, ?_, ?_⟩
  · rintro ⟨r, hr⟩
    rcases run_mc_harness_ok_elim hr with ⟨rows, hb, _⟩
    unfold buildRows at hb
    cases ha : run_answer_function a p with
    | error e => rw [ha] at hb; cases hb
    | ok x =>
      rw [ha] at hb
      cases he : evalDistractors p ds with
      | error e => rw [he] at hb; cases hb
      | ok drows =>
        exact ⟨⟨x, rfl⟩, (evalDistractors_ok_iff p ds).mp ⟨drows, he⟩⟩
  · rintro ⟨⟨x, hx⟩, hall⟩
    rcases (evalDistractors_ok_iff p ds).mpr hall with ⟨drows, hd⟩
    exact ⟨_, run_mc_harness_of_buildRows (by unfold buildRows; rw [hx, hd])⟩
  · intro r hr
    rcases run_mc_harness_ok_elim hr with ⟨rows, hb, hr2⟩
    unfold buildRows at hb
    cases ha : run_answer_function a p with
    | error e => rw [ha] at hb; cases hb
    | ok x =>
      rw [ha] at hb
      cases he : evalDistractors p ds with
      | error e => rw [he] at hb; cases hb
      | ok drows =>
        rw [he] at hb
        cases hb
        subst hr2
        simp only [labelRows_length, (sortRows_perm _).length_eq, List.length_cons,
          evalDistractors_length p ds drows he]
        omega
  · intro e ha
    unfold run_mc_harness buildRows
    rw [ha]
  · rintro pre sc post e hds ⟨x, hx⟩ hpre he
    subst hds
    unfold run_mc_harness buildRows
    rw [hx, evalDistractors_error_at p pre sc post e hpre he]

/-- A compiled snippet binding nothing — the distractor entry point is
missing, so its evaluation fails. -/
def noEntrySnippet : PyCode :=
  { source := "pass", exec := Except.ok [] }

/-- C4 witness: a successful two-snippet harness returns `1 + 1` options,
and a harness whose second distractor has no entry point returns exactly
that error. -/
theorem claim4_witness :
    ({ choices :=
         [ { label := "A", content_md := "1", is_correct := true,
             rationale := "correct answer" },
           { label := "B", content_md := "2", is_correct := false, rationale := "r" } ],
       collisions := [] } : HarnessRunResult).choices.length =
      1 + [("d1", mkDistractor "2" "r")].length ∧
    run_mc_harness (mkAnswer "Ans" "1")
      [("d1", mkDistractor "2" "r"), ("d2", noEntrySnippet)] [] =
      Except.error ("Solution code must define callable " ++ "distractor" ++ "(params).") := by
  constructor
  · exact (claim4_failure_propagation (mkAnswer "Ans" "1")
      [("d1", mkDistractor "2" "r")] []).2.1 _ (by rfl)
  · exact (claim4_failure_propagation (mkAnswer "Ans" "1")
      [("d1", mkDistractor "2" "r"), ("d2", noEntrySnippet)] []).2.2.2
      [("d1", mkDistractor "2" "r")] ("d2", noEntrySnippet) []
      ("Solution code must define callable " ++ "distractor" ++ "(params).")
      rfl ⟨_, rfl⟩
      (by intro sc2 hm; rw [List.mem_singleton] at hm; subst hm; exact ⟨_, rfl⟩)
      (by rfl)

/-! ## Claim C5 -/

/-- C5: the harness result is a function of the snippet evaluations alone.
Two calls whose answer evaluations agree and whose distractor lists agree
pairwise in source id and evaluation result return identical results —
the same label-to-content assignment, correctness flags, rationales, and
collision report.  Two runs with identical (deterministic) code strings
and parameters are the special case with equal arguments. -/
theorem claim5_deterministic :
    ∀ (a a2 : PyCode) (ds ds2 : List (String × PyCode)) (p p2 : Params),
      run_answer_function a p = run_answer_function a2 p2 →
      List.Forall₂ (fun sc sc2 => sc.1 = sc2.1 ∧
        run_distractor_function sc.2 p = run_distractor_function sc2.2 p2) ds ds2 →
      run_mc_harness a ds p = run_mc_harness a2 ds2 p2 := by
  intro a a2 ds ds2 p p2 hans hds
  unfold run_mc_harness buildRows
  rw [hans, evalDistractors_congr p p2 ds ds2 hds]

/-- An answer snippet with different source text and pre-strip whitespace
whose evaluation equals that of `mkAnswer "Ans" "1"`. -/
def c5OtherAnswer : PyCode :=
  { source := "def solve(params):\n    return dict(answer_md=..., final_answer=...)"
    exec := Except.ok [("solve", NsVal.callable (fun _ => CallOutcome.returns
      (PyVal.pdict [("answer_md", PyVal.pstr " Ans "), ("final_answer", PyVal.pstr " 1 ")])))] }

/-- A distractor snippet with different source text whose evaluation
equals that of `mkDistractor "2" "r"`. -/
def c5OtherDistractor : PyCode :=
  { source := "def distractor(params):\n    return dict(distractor_md=..., rationale=...)"
    exec := Except.ok [("distractor", NsVal.callable (fun _ => CallOutcome.returns
      (PyVal.pdict [("distractor_md", PyVal.pstr " 2 "), ("rationale", PyVal.pstr "r")])))] }

/-- C5 witness: two harness calls over snippets with equal evaluations
produce identical results. -/
theorem claim5_witness :
    run_mc_harness (mkAnswer "Ans" "1") [("d1", mkDistractor "2" "r")] [] =
      run_mc_harness c5OtherAnswer [("d1", c5OtherDistractor)] [] := by
  exact claim5_deterministic (mkAnswer "Ans" "1") c5OtherAnswer
    [("d1", mkDistractor "2" "r")] [("d1", c5OtherDistractor)] [] []
    (by rfl)
    (List.Forall₂.cons ⟨rfl, by rfl⟩ List.Forall₂.nil)

/-! ## Claim C6 -/

/-- C6: whenever the snippet defines the required entry point and it
returns a mapping whose two required fields are strings that are non-empty
after trimming, the evaluator returns exactly those two values trimmed, in
both roles. -/
theorem claim6_trimmed_fields :
    (∀ (src : String) (ns : List (String × NsVal)) (p : Params)
        (f : Params → CallOutcome) (entries : List (String × PyVal)) (a b : String),
      pyStrip src ≠ "" →
      List.lookup "solve" ns = some (NsVal.callable f) →
      f p = CallOutcome.returns (PyVal.pdict entries) →
      pyDictGet entries "answer_md" = some (PyVal.pstr a) →
      pyDictGet entries "final_answer" = some (PyVal.pstr b) →
      pyStrip a ≠ "" → pyStrip b ≠ "" →
      run_answer_function { source := src, exec := Except.ok ns } p =
        Except.ok { answer_md := pyStrip a, final_answer := pyStrip b }) ∧
    (∀ (src : String) (ns : List (String × NsVal)) (p : Params)
        (f : Params → CallOutcome) (entries : List (String × PyVal)) (a b : String),
      pyStrip src ≠ "" →
      List.lookup "distractor" ns = some (NsVal.callable f) →
      f p = CallOutcome.returns (PyVal.pdict entries) →
      pyDictGet entries "distractor_md" = some (PyVal.pstr a) →
      pyDictGet entries "rationale" = some (PyVal.pstr b) →
      pyStrip a ≠ "" → pyStrip b ≠ "" →
      run_distractor_function { source := src, exec := Except.ok ns } p =
        Except.ok { distractor_md := pyStrip a, rationale := pyStrip b }) := by
  constructor
  · intro src ns p f entries a b hsrc hlook hf hga hgb hna hnb
    unfold run_answer_function runCallable
    rw [if_neg hsrc]
    dsimp only
    rw [hlook]
    dsimp only
    rw [hf]
    dsimp only
    have h1 : isBadStrField (pyDictGet entries "answer_md") = false := by
      rw [hga]; simp [isBadStrField, hna]
    have h2 : isBadStrField (pyDictGet entries "final_answer") = false := by
      rw [hgb]; simp [isBadStrField, hnb]
    rw [h1, h2, hga, hgb]
    simp [strOf]
  · intro src ns p f entries a b hsrc hlook hf hga hgb hna hnb
    unfold run_distractor_function runCallable
    rw [if_neg hsrc]
    dsimp only
    rw [hlook]
    dsimp only
    rw [hf]
    dsimp only
    have h1 : isBadStrField (pyDictGet entries "distractor_md") = false := by
      rw [hga]; simp [isBadStrField, hna]
    have h2 : isBadStrField (pyDictGet entries "rationale") = false := by
      rw [hgb]; simp [isBadStrField, hnb]
    rw [h1, h2, hga, hgb]
    simp [strOf]

/-- C6 witness: whitespace-padded fields come back exactly trimmed, in
both roles. -/
theorem claim6_witness :
    run_answer_function (mkAnswer "  A  " " 1 ") [] =
      Except.ok { answer_md := "A", final_answer := "1" } ∧
    run_distractor_function (mkDistractor " 2 m/s " "  r  ") [] =
      Except.ok { distractor_md := "2 m/s", rationale := "r" } := by
  constructor
  · exact claim6_trimmed_fields.1 _ _ [] _
      [("answer_md", PyVal.pstr "  A  "), ("final_answer", PyVal.pstr " 1 ")]
      "  A  " " 1 " (by decide) rfl rfl rfl rfl (by decide) (by decide)
  · exact claim6_trimmed_fields.2 _ _ [] _
      [("distractor_md", PyVal.pstr " 2 m/s "), ("rationale", PyVal.pstr "  r  ")]
      " 2 m/s " "  r  " (by decide) rfl rfl rfl rfl (by decide) (by decide)

/-! ## Claim C9 -/

/-- C9: label assignment is purely positional — the option at sorted index
`i` carries `labels[i]` for `i < 5` and the sentinel `?` beyond, whatever
its correctness flag and however many distractors were supplied. -/
theorem claim9_labels :
    ∀ (a : PyCode) (ds : List (String × PyCode)) (p : Params) (r : HarnessRunResult),
      run_mc_harness a ds p = Except.ok r →
      ∀ i, i < r.choices.length →
        (r.choices.getD i dummyChoice).label =
          (if i < 5 then labels.getD i "?" else "?") := by
  intro a ds p r hr i hi
  rcases run_mc_harness_ok_elim hr with ⟨rows, _, hr2⟩
  subst hr2
  have hi2 : i < (sortRows rows).length := by
    simpa [labelRows_length] using hi
  exact labelRows_label (sortRows rows) i hi2

/-- C9 witness: with five distractors the sixth sorted option exists and
receives the sentinel label. -/
theorem claim9_witness :
    (({ choices :=
          [ { label := "A", content_md := "1", is_correct := true,
              rationale := "correct answer" },
            { label := "B", content_md := "2", is_correct := false, rationale := "r1" },
            { label := "C", content_md := "3", is_correct := false, rationale := "r2" },
            { label := "D", content_md := "4", is_correct := false, rationale := "r3" },
            { label := "E", content_md := "5", is_correct := false, rationale := "r4" },
            { label := "?", content_md := "6", is_correct := false, rationale := "r5" } ],
        collisions := [] } : HarnessRunResult).choices.getD 5 dummyChoice).label = "?" := by
  have h := claim9_labels (mkAnswer "Ans" "1")
    [("d1", mkDistractor "2" "r1"), ("d2", mkDistractor "3" "r2"),
     ("d3", mkDistractor "4" "r3"), ("d4", mkDistractor "5" "r4"),
     ("d5", mkDistractor "6" "r5")] [] _ (by rfl) 5 (by decide)
  simp at h
  exact h

/-! ## Claim C10 -/

/-- C10: before deduplication, sorting, and labeling, the harness strips
bold markup from every option text: the answer content and each
distractor content and rationale pass through `stripDisallowedBold`
(which replaces `**...**` and `__...__` by the inner text and deletes
`<strong>`, `</strong>`, `<b>`, `</b>` case-insensitively), so the
returned texts can differ from the evaluator outputs.  The first conjunct
fixes the assembled rows as `answerRow`/`distractorRow` images — both
defined by `stripDisallowedBold` — and the harness output as their
deduplication, sort and labeling; the remaining conjuncts evaluate the
stripping and a round trip on concrete markup. -/
theorem claim10_bold_stripping :
    (∀ (a : PyCode) (ds : List (String × PyCode)) (p : Params)
        (ans : AnswerRunResult) (rows : List Row),
      run_answer_function a p = Except.ok ans →
      List.Forall₂ (fun sc row => ∃ d, run_distractor_function sc.2 p = Except.ok d ∧
        row = distractorRow sc.1 d) ds rows →
      buildRows a ds p = Except.ok (answerRow ans :: rows) ∧
      run_mc_harness a ds p = Except.ok
        { choices := labelRows (sortRows (answerRow ans :: rows)),
          collisions := collisionsOf (answerRow ans :: rows) }) ∧
    stripDisallowedBold "**x** __y__ <strong>z</strong> <B>w</B>" = "x y z w" ∧
    run_mc_harness (mkAnswer "Ans" "**10** m/s")
      [("d1", mkDistractor "__2__ m/s" "<b>r</b>")] [] =
    Except.ok
      { choices :=
          [ { label := "A", content_md := "2 m/s", is_correct := false, rationale := "r" },
            { label := "B", content_md := "10 m/s", is_correct := true,
              rationale := "correct answer" } ],
        collisions := [] } := by
  refine ⟨?_, rfl, rfl⟩
  intro a ds p ans rows ha hf
  have he : evalDistractors p ds = Except.ok rows := evalDistractors_of_forall2 p ds rows hf
  constructor
  · unfold buildRows; rw [ha, he]
  · exact run_mc_harness_of_buildRows (by unfold buildRows; rw [ha, he])

/-- C10 witness: the first conjunct applied to snippets carrying markup —
the assembled rows hold the stripped texts. -/
theorem claim10_witness :
    buildRows (mkAnswer "Ans" "**10** m/s")
      [("d1", mkDistractor "__2__ m/s" "<b>r</b>")] [] =
    Except.ok
      [ { source_id := "answer", content_md := "10 m/s", is_correct := true,
          rationale := "correct answer" },
        { source_id := "d1", content_md := "2 m/s", is_correct := false,
          rationale := "r" } ] := by
  have h := claim10_bold_stripping.1 (mkAnswer "Ans" "**10** m/s")
    [("d1", mkDistractor "__2__ m/s" "<b>r</b>")] []
    { answer_md := "Ans", final_answer := "**10** m/s" }
    [ { source_id := "d1", content_md := "2 m/s", is_correct := false, rationale := "r" } ]
    (by rfl)
    (List.Forall₂.cons
      ⟨{ distractor_md := "__2__ m/s", rationale := "<b>r</b>" }, by rfl, by rfl⟩
      List.Forall₂.nil)
  exact h.1

end SolutionRuntime
